import Mathlib

/-!
Verification of the phish-aggregator core: the aggregation strategy engine,
the confidence blender and the evaluation/metrics engine, together with two
frontend helpers (`AppController.runEval` request construction and
`Utils.truncateUrl`) from `backend/app/static/js/app.js`.

The aggregator, evaluator and metrics derivation are implemented in the
backend service layer, which is not part of the shipped sources here; they
are modelled from the specification (each such definition says so in its
doc comment).  The confidence adjustment is embedded verbatim in
`app.js` (lines 993-999); `runEval` and `truncateUrl` are translated from
`app.js` directly.
-/

namespace PhishAgg

/-- The two aggregation strategies. -/
inductive Strategy
| any
| weighted
deriving DecidableEq, Repr

/-- Verdict for one URL under one strategy: label (0 or 1), score, the
contributing rule ids and the contributing model predictions. -/
structure Verdict where
  label : Nat
  score : ℚ
  contributing_rules : List String
  contributing_models : List (String × ℚ)
deriving DecidableEq, Repr

/-- Maximum of a list of rationals (used only on non-empty lists, where it
is the genuine maximum). -/
def listMax : List ℚ → ℚ
| [] => 0
| x :: xs => xs.foldl max x

/-- The rule ids that hit, in input order. -/
def hitIds (ruleHits : List (String × Bool)) : List String :=
  (ruleHits.filter (fun r => r.2)).map (fun r => r.1)

/-- Number of rules that hit. -/
def hitCount (ruleHits : List (String × Bool)) : Nat :=
  (ruleHits.filter (fun r => r.2)).length

/-- Modelled from the spec: `aggregate` (§4.1) of the backend aggregator,
whose implementation file is not among the shipped sources.  With
H = count of true entries of `rule_hits` and P = values of
`model_predictions`: ANY returns score 1 and label 1 when H > 0 with all
hit rule ids contributing, else max(P) with label = (score ≥ threshold)
when P is non-empty, else score 0 and label 0; WEIGHTED returns
score = min(mean(P) + min(H,5)·0.2, 1) with label = (score ≥ threshold),
mean of an empty P being 0. -/
def aggregate (ruleHits : List (String × Bool)) (modelPreds : List (String × ℚ))
    (strategy : Strategy) (threshold : ℚ) : Verdict :=
  let hits := hitIds ruleHits
  let H : Nat := hits.length
  let P : List ℚ := modelPreds.map (fun m => m.2)
  match strategy with
  | .any =>
    if 0 < H then
      { label := 1, score := 1, contributing_rules := hits,
        contributing_models := modelPreds }
    else if P ≠ [] then
      let score := listMax P
      { label := if threshold ≤ score then 1 else 0, score := score,
        contributing_rules := [], contributing_models := modelPreds }
    else
      { label := 0, score := 0, contributing_rules := [],
        contributing_models := [] }
  | .weighted =>
    let base : ℚ := if P = [] then 0 else P.sum / (P.length : ℚ)
    let ruleBonus : ℚ := ((min H 5 : Nat) : ℚ) * (1/5)
    let score := min (base + ruleBonus) 1
    { label := if threshold ≤ score then 1 else 0, score := score,
      contributing_rules := hits, contributing_models := modelPreds }

/-- Confidence adjustment of the URLTran wrapper, embedded verbatim in
`app.js` lines 993-999: if `heuristic_score > 0.7` and
`model_confidence < 0.5` the adjusted confidence is their average; else if
`heuristic_score < 0.3` and `model_confidence > 0.7` it is
`model_confidence*0.7 + heuristic_score*0.3`; else the raw confidence. -/
def adjusted_confidence (model_confidence heuristic_score : ℚ) : ℚ :=
  if 7/10 < heuristic_score ∧ model_confidence < 1/2 then
    (model_confidence + heuristic_score) / 2
  else if heuristic_score < 3/10 ∧ 7/10 < model_confidence then
    model_confidence * (7/10) + heuristic_score * (3/10)
  else
    model_confidence

/-- Length of `hitIds` is the number of hitting rules. -/
theorem hitIds_length (l : List (String × Bool)) : (hitIds l).length = hitCount l := by
  simp [hitIds, hitCount]

/-- A list of n copies of a hitting rule has hit count n. -/
theorem hitCount_replicate_true (n : Nat) (s : String) :
    hitCount (List.replicate n (s, true)) = n := by
  induction n with
  | zero => rfl
  | succ k ih =>
    simp only [List.replicate_succ, hitCount, List.filter_cons] at ih ⊢
    rw [if_pos trivial, List.length_cons, ih]

/-- A label of the form `if t ≤ S then 1 else 0` equals 1 exactly when t ≤ S. -/
theorem ite_label_iff (t S : ℚ) : (if t ≤ S then (1 : Nat) else 0) = 1 ↔ t ≤ S := by
  split <;> simp_all

/-- Claim C1: under the ANY strategy, whenever at least one rule hits,
`aggregate` returns score 1 and label 1 with `contributing_rules` equal to
the list of all hit rule ids, for every list of model predictions and every
threshold in [0,1] — a rule hit always overrides model evidence. -/
theorem any_rule_hit_overrides (ruleHits : List (String × Bool))
    (modelPreds : List (String × ℚ)) (threshold : ℚ)
    (hhit : ∃ r ∈ ruleHits, r.2 = true)
    (h0 : 0 ≤ threshold) (h1 : threshold ≤ 1) :
    (aggregate ruleHits modelPreds .any threshold).score = 1 ∧
    (aggregate ruleHits modelPreds .any threshold).label = 1 ∧
    (aggregate ruleHits modelPreds .any threshold).contributing_rules = hitIds ruleHits := by
  have hlen : 0 < (hitIds ruleHits).length := by
    obtain ⟨r, hr, hrt⟩ := hhit
    simp only [hitIds, List.length_map]
    rw [List.length_pos]
    intro hnil
    rw [List.filter_eq_nil_iff] at hnil
    exact hnil r hr (by simp [hrt])
  simp [aggregate, hlen]

/-- Claim C1 witness: a single hitting rule forces score 1 and label 1 even
when the only model probability is 0 and the threshold is 1/2. -/
theorem any_rule_hit_overrides_witness :
    (aggregate [("r1", true)] [("m1", 0)] .any (1/2)).score = 1 ∧
    (aggregate [("r1", true)] [("m1", 0)] .any (1/2)).label = 1 ∧
    (aggregate [("r1", true)] [("m1", 0)] .any (1/2)).contributing_rules
      = hitIds [("r1", true)] :=
  any_rule_hit_overrides [("r1", true)] [("m1", 0)] (1/2)
    ⟨("r1", true), by simp, rfl⟩ (by norm_num) (by norm_num)

/-- Claim C2: under the WEIGHTED strategy, the score is
min(base + min(H,5)·0.2, 1) where base is the mean of the model
probabilities (0 when there are none), the label is 1 exactly when the
score reaches the threshold, the score never exceeds 1, and the rule bonus
saturates at 5 hits: any hit count of at least 5 yields the same score as
exactly 5 hits. -/
theorem weighted_score_formula (ruleHits : List (String × Bool))
    (modelPreds : List (String × ℚ)) (threshold : ℚ) :
    ((aggregate ruleHits modelPreds .weighted threshold).score
      = min ((if modelPreds.map (fun m => m.2) = [] then 0
              else (modelPreds.map (fun m => m.2)).sum
                    / ((modelPreds.map (fun m => m.2)).length : ℚ))
             + ((min (hitCount ruleHits) 5 : Nat) : ℚ) * (1/5)) 1) ∧
    ((aggregate ruleHits modelPreds .weighted threshold).label = 1
      ↔ threshold ≤ (aggregate ruleHits modelPreds .weighted threshold).score) ∧
    (aggregate ruleHits modelPreds .weighted threshold).score ≤ 1 ∧
    (∀ n : Nat, 5 ≤ n →
      (aggregate (List.replicate n ("r", true)) modelPreds .weighted threshold).score
        = (aggregate (List.replicate 5 ("r", true)) modelPreds .weighted threshold).score) := by
  refine ⟨?_, ?_, ?_, ?_⟩
  · simp [aggregate, hitIds_length]
  · simp [aggregate, ite_label_iff]
  · simp only [aggregate]
    exact min_le_right _ _
  · intro n hn
    simp only [aggregate, hitIds_length, hitCount_replicate_true]
    rw [Nat.min_eq_right hn, Nat.min_eq_right (le_refl 5)]

/-- Claim C2 witness: with a single model probability 1/2, hit counts 6 and
5 give the same WEIGHTED score (the bonus saturates). -/
theorem weighted_score_formula_witness :
    (aggregate (List.replicate 6 ("r", true)) [("m", (1:ℚ)/2)] .weighted (1/2)).score
      = (aggregate (List.replicate 5 ("r", true)) [("m", (1:ℚ)/2)] .weighted (1/2)).score :=
  (weighted_score_formula (List.replicate 6 ("r", true)) [("m", (1:ℚ)/2)] (1/2)).2.2.2
    6 (by norm_num)

/-- Claim C3: for raw probability and heuristic score in [0,1], the
confidence adjustment applies exactly the three ordered cases of the
source and in particular maps (0.3, 0.9) to 0.6, (0.9, 0.1) to 0.66 and
(0.5, 0.5) to 0.5. -/
theorem blend_three_cases (raw heuristic : ℚ)
    (hr0 : 0 ≤ raw) (hr1 : raw ≤ 1) (hh0 : 0 ≤ heuristic) (hh1 : heuristic ≤ 1) :
    (7/10 < heuristic ∧ raw < 1/2 →
      adjusted_confidence raw heuristic = (raw + heuristic) / 2) ∧
    (¬(7/10 < heuristic ∧ raw < 1/2) → heuristic < 3/10 ∧ 7/10 < raw →
      adjusted_confidence raw heuristic = raw * (7/10) + heuristic * (3/10)) ∧
    (¬(7/10 < heuristic ∧ raw < 1/2) → ¬(heuristic < 3/10 ∧ 7/10 < raw) →
      adjusted_confidence raw heuristic = raw) ∧
    adjusted_confidence (3/10) (9/10) = 6/10 ∧
    adjusted_confidence (9/10) (1/10) = 66/100 ∧
    adjusted_confidence (1/2) (1/2) = 1/2 := by
  refine ⟨?_, ?_, ?_, ?_, ?_, ?_⟩
  · intro h
    simp only [adjusted_confidence]
    rw [if_pos h]
  · intro h1 h2
    simp only [adjusted_confidence]
    rw [if_neg h1, if_pos h2]
  · intro h1 h2
    simp only [adjusted_confidence]
    rw [if_neg h1, if_neg h2]
  · norm_num [adjusted_confidence]
  · norm_num [adjusted_confidence]
  · norm_num [adjusted_confidence]

/-- Claim C3 witness: the first blending case at raw 0.3, heuristic 0.9
yields the average 0.6. -/
theorem blend_three_cases_witness :
    adjusted_confidence (3/10) (9/10) = (3/10 + 9/10) / 2 :=
  (blend_three_cases (3/10) (9/10) (by norm_num) (by norm_num) (by norm_num)
    (by norm_num)).1 (by norm_num)

/-- Claim C4 counterexample: threshold 0 lies in [0,1], yet with empty rule
hits and empty model predictions the WEIGHTED strategy returns label 1 (its
label is score ≥ threshold and 0 ≥ 0), not label 0 as the claim states for
every threshold in [0,1]. -/
theorem aggregate_empty_weighted_zero_threshold :
    ((0:ℚ) ≤ 0 ∧ (0:ℚ) ≤ 1) ∧ (aggregate [] [] .weighted 0).label = 1 := by
  norm_num [aggregate, hitIds]

/-- Claim C4 amended: with empty rule hits and empty model predictions and
a threshold in [0,1], the ANY strategy returns label 0 and score 0; the
WEIGHTED strategy returns score 0, and label 0 whenever the threshold is
strictly positive (at threshold 0 it returns label 1, since its label is
score ≥ threshold). -/
theorem aggregate_empty_default_negative (t : ℚ) (h0 : 0 ≤ t) (h1 : t ≤ 1) :
    (aggregate [] [] .any t).label = 0 ∧
    (aggregate [] [] .any t).score = 0 ∧
    (aggregate [] [] .weighted t).score = 0 ∧
    (0 < t → (aggregate [] [] .weighted t).label = 0) := by
  refine ⟨by simp [aggregate, hitIds], by simp [aggregate, hitIds],
    by norm_num [aggregate, hitIds], ?_⟩
  intro ht
  simp [aggregate, hitIds]
  exact ht

/-- Claim C4 witness: at threshold 1/2 both strategies return label 0 and
score 0 on empty inputs. -/
theorem aggregate_empty_default_negative_witness :
    (aggregate [] [] .any (1/2)).label = 0 ∧
    (aggregate [] [] .any (1/2)).score = 0 ∧
    (aggregate [] [] .weighted (1/2)).score = 0 ∧
    ((0:ℚ) < 1/2 → (aggregate [] [] .weighted (1/2)).label = 0) :=
  aggregate_empty_default_negative (1/2) (by norm_num) (by norm_num)

/-- Claim C5 counterexample: at threshold 0 with no evidence, the ANY
strategy returns label 0 although score 0 reaches the threshold, so
label = 1 is not equivalent to score ≥ threshold there. -/
theorem any_label_iff_fails_at_zero :
    ¬(((aggregate [] [] .any 0).label = 1)
      ↔ (0:ℚ) ≤ (aggregate [] [] .any 0).score) := by
  norm_num [aggregate, hitIds]

/-- Claim C5 amended: label = 1 is equivalent to score ≥ threshold for the
WEIGHTED strategy always, and for the ANY strategy whenever the threshold
is strictly positive or any evidence (a rule hit or a model prediction) is
present; in the remaining case — ANY, threshold 0, no evidence — the code
fixes label 0 while score 0 reaches the threshold. -/
theorem label_iff_score_ge_threshold (ruleHits : List (String × Bool))
    (modelPreds : List (String × ℚ)) (t : ℚ) (h0 : 0 ≤ t) (h1 : t ≤ 1) :
    ((aggregate ruleHits modelPreds .weighted t).label = 1
      ↔ t ≤ (aggregate ruleHits modelPreds .weighted t).score) ∧
    ((0 < t ∨ 0 < hitCount ruleHits ∨ modelPreds ≠ []) →
      ((aggregate ruleHits modelPreds .any t).label = 1
        ↔ t ≤ (aggregate ruleHits modelPreds .any t).score)) := by
  constructor
  · simp [aggregate, ite_label_iff]
  · intro hcond
    by_cases hH : 0 < (hitIds ruleHits).length
    · simp [aggregate, hH, h1]
    · by_cases hP : modelPreds = []
      · have ht : 0 < t := by
          rcases hcond with h | h | h
          · exact h
          · exact absurd h (by simp [← hitIds_length, hH])
          · exact absurd hP h
        have : ¬ t ≤ (0:ℚ) := not_le.mpr ht
        simp [aggregate, hH, hP, this]
      · have hP' : modelPreds.map (fun m => m.2) ≠ [] := by
          simpa using hP
        simp [aggregate, hH, hP', ite_label_iff]

/-- Claim C5 witness: at threshold 1/2 with one rule hit and one model
prediction, the equivalence holds for both strategies. -/
theorem label_iff_score_ge_threshold_witness :
    ((aggregate [("r1", true)] [("m1", (3:ℚ)/10)] .weighted (1/2)).label = 1
      ↔ (1:ℚ)/2 ≤ (aggregate [("r1", true)] [("m1", (3:ℚ)/10)] .weighted (1/2)).score) ∧
    ((0 < (1:ℚ)/2 ∨ 0 < hitCount [("r1", true)] ∨ ([("m1", (3:ℚ)/10)] : List (String × ℚ)) ≠ []) →
      ((aggregate [("r1", true)] [("m1", (3:ℚ)/10)] .any (1/2)).label = 1
        ↔ (1:ℚ)/2 ≤ (aggregate [("r1", true)] [("m1", (3:ℚ)/10)] .any (1/2)).score)) :=
  label_iff_score_ge_threshold [("r1", true)] [("m1", (3:ℚ)/10)] (1/2)
    (by norm_num) (by norm_num)

/-- Confusion-matrix counts accumulated by the evaluator per strategy. -/
structure ConfusionMatrix where
  tp : Nat
  tn : Nat
  fp : Nat
  fn : Nat
deriving DecidableEq, Repr

/-- Derived metrics of one strategy. -/
structure Metrics where
  accuracy : ℚ
  precision : ℚ
  recall' : ℚ
  f1 : ℚ
deriving DecidableEq, Repr

/-- Modelled from the spec: metrics derivation (§4.3 step 4) of the backend
evaluator, whose implementation file is not among the shipped sources:
accuracy = (tp+tn)/total, precision = tp/(tp+fp) (0 when tp+fp = 0),
recall = tp/(tp+fn) (0 when tp+fn = 0),
f1 = 2·precision·recall/(precision+recall) (0 when the denominator is 0). -/
def deriveMetrics (cm : ConfusionMatrix) : Metrics :=
  let total : ℚ := (cm.tp : ℚ) + cm.tn + cm.fp + cm.fn
  let accuracy : ℚ := ((cm.tp : ℚ) + cm.tn) / total
  let precision : ℚ := if cm.tp + cm.fp = 0 then 0 else (cm.tp : ℚ) / ((cm.tp : ℚ) + cm.fp)
  let recall' : ℚ := if cm.tp + cm.fn = 0 then 0 else (cm.tp : ℚ) / ((cm.tp : ℚ) + cm.fn)
  let f1 : ℚ := if precision + recall' = 0 then 0
                else 2 * precision * recall' / (precision + recall')
  { accuracy := accuracy, precision := precision, recall' := recall', f1 := f1 }

/-- One input record of an evaluation: a URL with an optional ground-truth
label. -/
structure URLRecord where
  url : String
  ground_truth_label : Option Nat
deriving DecidableEq, Repr

/-- One entry of the ordered detail list of an evaluation report. -/
structure EvalDetail where
  url : String
  true_label : Nat
  strategy : Strategy
  verdict : Verdict
deriving DecidableEq, Repr

/-- An evaluation report: per-strategy metrics in the caller-supplied
strategy order, plus the ordered detail list. -/
structure EvaluationReport where
  metrics : List (Strategy × Metrics)
  details : List EvalDetail
deriving DecidableEq, Repr

/-- The fatal validation errors of the evaluator (§7). -/
inductive ValidationError
| invalidThreshold
| emptyInput
| unknownSourceId
| missingGroundTruth
deriving DecidableEq, Repr

/-- Rule-oracle answers for one URL over the selected rule ids. -/
def oracleRuleHits (ruleOracle : String → String → Bool)
    (rule_ids : List String) (url : String) : List (String × Bool) :=
  rule_ids.map (fun rid => (rid, ruleOracle url rid))

/-- Model-oracle answers for one URL over the selected model ids. -/
def oracleModelPreds (modelOracle : String → String → ℚ)
    (model_ids : List String) (url : String) : List (String × ℚ) :=
  model_ids.map (fun mid => (mid, modelOracle url mid))

/-- Modelled from the spec: confusion-count accumulation (§4.3 step 3) of
the backend evaluator, whose implementation file is not among the shipped
sources. -/
def confusionFor (records : List URLRecord) (rule_ids model_ids : List String)
    (ruleOracle : String → String → Bool) (modelOracle : String → String → ℚ)
    (s : Strategy) (threshold : ℚ) : ConfusionMatrix :=
  records.foldl (fun cm r =>
    let truth := r.ground_truth_label.getD 0
    let v := aggregate (oracleRuleHits ruleOracle rule_ids r.url)
      (oracleModelPreds modelOracle model_ids r.url) s threshold
    if v.label = 1 ∧ truth = 1 then { cm with tp := cm.tp + 1 }
    else if v.label = 0 ∧ truth = 0 then { cm with tn := cm.tn + 1 }
    else if v.label = 1 ∧ truth = 0 then { cm with fp := cm.fp + 1 }
    else { cm with fn := cm.fn + 1 }) ⟨0, 0, 0, 0⟩

/-- The report of a successful evaluation: metrics per requested strategy
in order, and one detail entry per record per strategy, grouped by record
in input order. -/
def reportOf (records : List URLRecord) (rule_ids model_ids : List String)
    (ruleOracle : String → String → Bool) (modelOracle : String → String → ℚ)
    (strategies : List Strategy) (threshold : ℚ) : EvaluationReport :=
  { metrics := strategies.map (fun s =>
      (s, deriveMetrics (confusionFor records rule_ids model_ids ruleOracle modelOracle s threshold)))
    details := records.flatMap (fun r => strategies.map (fun s =>
      { url := r.url
        true_label := r.ground_truth_label.getD 0
        strategy := s
        verdict := aggregate (oracleRuleHits ruleOracle rule_ids r.url)
          (oracleModelPreds modelOracle model_ids r.url) s threshold })) }

/-- Modelled from the spec: `evaluate` (§4.3, §7) of the backend evaluator,
whose implementation file is not among the shipped sources.  Invalid
threshold, empty URL list, an unknown rule or model id, or a record missing
its ground-truth label are fatal validation errors returning no partial
result; otherwise the full report is produced. -/
def evaluate (records : List URLRecord) (rule_ids model_ids : List String)
    (known_rule_ids known_model_ids : List String)
    (ruleOracle : String → String → Bool) (modelOracle : String → String → ℚ)
    (strategies : List Strategy) (threshold : ℚ) :
    Except ValidationError EvaluationReport :=
  if ¬(0 ≤ threshold ∧ threshold ≤ 1) then .error .invalidThreshold
  else if records = [] then .error .emptyInput
  else if ¬(rule_ids.all (fun rid => known_rule_ids.contains rid)
            ∧ model_ids.all (fun mid => known_model_ids.contains mid)) then
    .error .unknownSourceId
  else if ¬(records.all (fun r => r.ground_truth_label.isSome)) then
    .error .missingGroundTruth
  else
    .ok (reportOf records rule_ids model_ids ruleOracle modelOracle strategies threshold)

/-- Claim C6: the derived metrics satisfy accuracy = (tp+tn)/total,
precision = tp/(tp+fp) with 0 at zero denominator, recall = tp/(tp+fn)
with 0 at zero denominator, f1 = 2·precision·recall/(precision+recall)
with 0 at zero denominator; in particular a matrix with no positive ground
truth and no predicted positives (tp = fp = fn = 0) yields
precision = recall = f1 = 0.  In this rational-number model every field is
a well-defined rational, so no NaN or undefined value can appear. -/
theorem metrics_no_nan (cm : ConfusionMatrix) :
    ((deriveMetrics cm).accuracy
      = ((cm.tp : ℚ) + cm.tn) / ((cm.tp : ℚ) + cm.tn + cm.fp + cm.fn)) ∧
    (cm.tp + cm.fp = 0 → (deriveMetrics cm).precision = 0) ∧
    (cm.tp + cm.fp ≠ 0 →
      (deriveMetrics cm).precision = (cm.tp : ℚ) / ((cm.tp : ℚ) + cm.fp)) ∧
    (cm.tp + cm.fn = 0 → (deriveMetrics cm).recall' = 0) ∧
    (cm.tp + cm.fn ≠ 0 →
      (deriveMetrics cm).recall' = (cm.tp : ℚ) / ((cm.tp : ℚ) + cm.fn)) ∧
    ((deriveMetrics cm).precision + (deriveMetrics cm).recall' = 0 →
      (deriveMetrics cm).f1 = 0) ∧
    ((deriveMetrics cm).precision + (deriveMetrics cm).recall' ≠ 0 →
      (deriveMetrics cm).f1
        = 2 * (deriveMetrics cm).precision * (deriveMetrics cm).recall'
            / ((deriveMetrics cm).precision + (deriveMetrics cm).recall')) ∧
    (cm.tp = 0 → cm.fp = 0 → cm.fn = 0 →
      (deriveMetrics cm).precision = 0 ∧ (deriveMetrics cm).recall' = 0 ∧
      (deriveMetrics cm).f1 = 0) := by
  refine ⟨rfl, ?_, ?_, ?_, ?_, ?_, ?_, ?_⟩
  · intro h
    simp [deriveMetrics, h]
  · intro h
    simp [deriveMetrics, h]
  · intro h
    simp [deriveMetrics, h]
  · intro h
    simp [deriveMetrics, h]
  · intro h
    simp only [deriveMetrics] at h ⊢
    rw [if_pos h]
  · intro h
    simp only [deriveMetrics] at h ⊢
    rw [if_neg h]
  · intro h1 h2 h3
    simp [deriveMetrics, h1, h2, h3]

/-- Claim C6 witness: on the matrix tp = 0, tn = 3, fp = 0, fn = 0 (zero
positive ground truth, zero predicted positives) precision, recall and f1
are all 0. -/
theorem metrics_no_nan_witness :
    (deriveMetrics ⟨0, 3, 0, 0⟩).precision = 0 ∧
    (deriveMetrics ⟨0, 3, 0, 0⟩).recall' = 0 ∧
    (deriveMetrics ⟨0, 3, 0, 0⟩).f1 = 0 :=
  (metrics_no_nan ⟨0, 3, 0, 0⟩).2.2.2.2.2.2.2 rfl rfl rfl

/-- Claim C7: whenever the threshold lies outside [0,1], the record list is
empty, a selected rule or model id is not among the known ids, or some
record lacks its ground-truth label, `evaluate` returns a fatal validation
error and no report — a record missing its label is never silently
skipped. -/
theorem evaluate_fatal_validation (records : List URLRecord)
    (rule_ids model_ids known_rule_ids known_model_ids : List String)
    (ruleOracle : String → String → Bool) (modelOracle : String → String → ℚ)
    (strategies : List Strategy) (threshold : ℚ)
    (hbad : ¬(0 ≤ threshold ∧ threshold ≤ 1) ∨ records = [] ∨
      ¬(rule_ids.all (fun rid => known_rule_ids.contains rid)
        ∧ model_ids.all (fun mid => known_model_ids.contains mid)) ∨
      (∃ r ∈ records, r.ground_truth_label = none)) :
    ∃ e, evaluate records rule_ids model_ids known_rule_ids known_model_ids
      ruleOracle modelOracle strategies threshold = .error e := by
  unfold evaluate
  by_cases h1 : ¬(0 ≤ threshold ∧ threshold ≤ 1)
  · exact ⟨_, by rw [if_pos h1]⟩
  by_cases h2 : records = []
  · exact ⟨_, by rw [if_neg h1, if_pos h2]⟩
  by_cases h3 : ¬(rule_ids.all (fun rid => known_rule_ids.contains rid)
      ∧ model_ids.all (fun mid => known_model_ids.contains mid))
  · exact ⟨_, by rw [if_neg h1, if_neg h2, if_pos h3]⟩
  have h4 : ¬(records.all (fun r => r.ground_truth_label.isSome)) := by
    rcases hbad with h | h | h | h
    · exact absurd h h1
    · exact absurd h h2
    · exact absurd h h3
    · obtain ⟨r, hr, hnone⟩ := h
      simp only [List.all_eq_true, not_forall]
      refine ⟨r, ?_⟩
      simp [hr, hnone]
  exact ⟨_, by rw [if_neg h1, if_neg h2, if_neg h3, if_pos h4]⟩

/-- Claim C7 witness: a threshold of 2 is rejected with a validation
error. -/
theorem evaluate_fatal_validation_witness :
    ∃ e, evaluate [⟨"u", some 1⟩] [] [] [] []
      (fun _ _ => false) (fun _ _ => 0) [.any] 2 = .error e :=
  evaluate_fatal_validation [⟨"u", some 1⟩] [] [] [] []
    (fun _ _ => false) (fun _ _ => 0) [.any] 2
    (Or.inl (by norm_num))

/-- Claim C8: a successful `evaluate` returns a report whose metrics list
keeps the caller-supplied strategy order, and whose detail list consists of
entries of the shape url / true_label / strategy / verdict, grouped by
input record in input URL order. -/
theorem evaluate_preserves_order (records : List URLRecord)
    (rule_ids model_ids known_rule_ids known_model_ids : List String)
    (ruleOracle : String → String → Bool) (modelOracle : String → String → ℚ)
    (strategies : List Strategy) (threshold : ℚ) (report : EvaluationReport)
    (hok : evaluate records rule_ids model_ids known_rule_ids known_model_ids
      ruleOracle modelOracle strategies threshold = .ok report) :
    report.metrics.map Prod.fst = strategies ∧
    report.details.map (fun d => d.url)
      = records.flatMap (fun r => strategies.map (fun _ => r.url)) ∧
    report.details = records.flatMap (fun r => strategies.map (fun s =>
      { url := r.url
        true_label := r.ground_truth_label.getD 0
        strategy := s
        verdict := aggregate (oracleRuleHits ruleOracle rule_ids r.url)
          (oracleModelPreds modelOracle model_ids r.url) s threshold })) := by
  have hrep : report = reportOf records rule_ids model_ids ruleOracle modelOracle
      strategies threshold := by
    unfold evaluate at hok
    split at hok
    · cases hok
    split at hok
    · cases hok
    split at hok
    · cases hok
    split at hok
    · cases hok
    cases hok
    rfl
  subst hrep
  refine ⟨?_, ?_, rfl⟩
  · simp [reportOf, Function.comp_def]
  · simp [reportOf, List.map_flatMap, Function.comp_def]

/-- Claim C8 witness: a concrete successful evaluation over two records and
both strategies keeps strategy order and URL order. -/
theorem evaluate_preserves_order_witness :
    (reportOf [⟨"a", some 1⟩, ⟨"b", some 0⟩] [] [] (fun _ _ => false)
        (fun _ _ => 0) [.any, .weighted] 1).metrics.map Prod.fst
      = [Strategy.any, Strategy.weighted] ∧
    (reportOf [⟨"a", some 1⟩, ⟨"b", some 0⟩] [] [] (fun _ _ => false)
        (fun _ _ => 0) [.any, .weighted] 1).details.map (fun d => d.url)
      = ([⟨"a", some 1⟩, ⟨"b", some 0⟩] : List URLRecord).flatMap
          (fun r => ([.any, .weighted] : List Strategy).map (fun _ => r.url)) ∧
    (reportOf [⟨"a", some 1⟩, ⟨"b", some 0⟩] [] [] (fun _ _ => false)
        (fun _ _ => 0) [.any, .weighted] 1).details
      = ([⟨"a", some 1⟩, ⟨"b", some 0⟩] : List URLRecord).flatMap
          (fun r => ([.any, .weighted] : List Strategy).map (fun s =>
            { url := r.url
              true_label := r.ground_truth_label.getD 0
              strategy := s
              verdict := aggregate (oracleRuleHits (fun _ _ => false) [] r.url)
                (oracleModelPreds (fun _ _ => 0) [] r.url) s 1 })) :=
  evaluate_preserves_order [⟨"a", some 1⟩, ⟨"b", some 0⟩] [] [] [] []
    (fun _ _ => false) (fun _ _ => 0) [.any, .weighted] 1
    (reportOf [⟨"a", some 1⟩, ⟨"b", some 0⟩] [] [] (fun _ _ => false)
      (fun _ _ => 0) [.any, .weighted] 1) rfl

/-- JS `value.split('\n')`: split a character list at newlines; an empty
input yields one empty segment, as in JS. -/
def splitLines : List Char → List (List Char)
| [] => [[]]
| c :: rest =>
  match splitLines rest with
  | [] => [[c]]
  | l :: ls => if c = '\n' then [] :: l :: ls else (c :: l) :: ls

/-- JS `x.trim()`: drop whitespace at both ends of a character list. -/
def jsTrim (s : List Char) : List Char :=
  ((s.dropWhile Char.isWhitespace).reverse.dropWhile Char.isWhitespace).reverse

/-- URL extraction of `AppController.runEval` (app.js lines 628-631): split
the textarea at newlines, trim every line and keep the non-empty ones. -/
def evalUrls (textarea : List Char) : List (List Char) :=
  ((splitLines textarea).map jsTrim).filter (fun s => s ≠ [])

/-- The request body built by `AppController.runEval`: bare URL strings,
the checked rule and model ids, a strategy list and the threshold.  There
is no field for ground-truth labels. -/
structure EvalRequestParams where
  urls : List (List Char)
  use_rules : List String
  use_models : List String
  strategies : List String
  threshold : ℚ
deriving DecidableEq, Repr

/-- Translated from `AppController.runEval` (app.js lines 625-657): the
textarea content is split at newlines, trimmed, and empty lines dropped;
when no URL remains no request is sent; otherwise the request carries the
checked rule and model ids, the hard-coded strategy list
['any', 'weighted'] and the threshold.  The selected strategy radio value
(read by `runScan`) is passed in but never used. -/
def runEvalParams (textarea : List Char) (checkedRules checkedModels : List String)
    (strategyRadio : String) (threshold : ℚ) : Option EvalRequestParams :=
  let urls := evalUrls textarea
  if urls = [] then none
  else some { urls := urls, use_rules := checkedRules, use_models := checkedModels,
              strategies := ["any", "weighted"], threshold := threshold }

/-- Claim C9: every evaluation request built by `runEval` carries exactly
the strategy list ['any', 'weighted'] in that order, is independent of the
selected strategy radio value, and its records are the bare trimmed URL
strings of the textarea, carrying no ground-truth labels (the request type
has no label field). -/
theorem runEval_strategies_hardcoded (textarea : List Char)
    (rules models : List String) (radio radio' : String) (threshold : ℚ) :
    runEvalParams textarea rules models radio threshold
      = runEvalParams textarea rules models radio' threshold ∧
    (∀ p, runEvalParams textarea rules models radio threshold = some p →
      p.strategies = ["any", "weighted"] ∧ p.urls = evalUrls textarea) := by
  refine ⟨rfl, ?_⟩
  intro p hp
  simp only [runEvalParams] at hp
  split at hp
  · cases hp
  · cases hp
    exact ⟨rfl, rfl⟩

/-- Claim C9 witness: with textarea content "a\nb", radio value "any" and
threshold 1, the built request has strategies ['any', 'weighted'] and the
two bare URLs. -/
theorem runEval_strategies_hardcoded_witness :
    (⟨[['a'], ['b']], [], [], ["any", "weighted"], 1⟩
        : EvalRequestParams).strategies = ["any", "weighted"] ∧
    (⟨[['a'], ['b']], [], [], ["any", "weighted"], 1⟩
        : EvalRequestParams).urls = evalUrls ('a' :: '\n' :: 'b' :: []) :=
  (runEval_strategies_hardcoded ('a' :: '\n' :: 'b' :: []) [] [] "any" "weighted" 1).2
    ⟨[['a'], ['b']], [], [], ["any", "weighted"], 1⟩ (by decide)

/-- The hostname and pathname the platform URL constructor extracts from a
parseable URL. -/
structure URLParts where
  hostname : List Char
  pathname : List Char
deriving DecidableEq, Repr

/-- JS `s.substring(0, e)`: clamp a possibly negative end index to the
string, taking that many leading characters. -/
def jsSubstring (s : List Char) (e : Int) : List Char := s.take e.toNat

/-- Translated from `Utils.truncateUrl` (app.js lines 117-140).  JS strings
are modelled as character lists and the platform `new URL` constructor as a
parameter returning hostname and pathname on success and `none` when it
throws.  A URL that is empty or already fits is returned unchanged; a
parsed URL whose hostname plus pathname fit is returned unchanged; a long
hostname is cut to `maxLength - 10` plus an ellipsis; otherwise the
hostname is kept and the pathname cut; an unparseable URL is cut to
`maxLength - 3` plus an ellipsis. -/
def truncateUrl (parse : List Char → Option URLParts)
    (url : List Char) (maxLength : Int) : List Char :=
  if url = [] ∨ (url.length : Int) ≤ maxLength then url
  else
    match parse url with
    | some u =>
      if (u.hostname.length : Int) + (u.pathname.length : Int) ≤ maxLength then url
      else if maxLength - 10 < (u.hostname.length : Int) then
        jsSubstring u.hostname (maxLength - 10) ++ ['.', '.', '.']
      else
        u.hostname
          ++ jsSubstring u.pathname (maxLength - (u.hostname.length : Int) - 3)
          ++ ['.', '.', '.']
    | none => jsSubstring url (maxLength - 3) ++ ['.', '.', '.']

/-- A URL-constructor stand-in for one concrete URL, returning the
hostname and pathname JS extracts from https example.com slash a. -/
def parseExample : List Char → Option URLParts :=
  fun u => if u = "https://example.com/a".toList
    then some ⟨"example.com".toList, "/a".toList⟩ else none

/-- Claim C10 counterexample: for the parseable 21-character URL
https example.com slash a and maxLength 20 (hostname 11 plus pathname 2
fit in 20), `truncateUrl` returns the URL unchanged, so the result has
length 21 > 20 although the URL did not fit — refuting both the bound and
the parenthetical that the URL is returned unchanged only when it already
fits. -/
theorem truncateUrl_exceeds_maxLength :
    truncateUrl parseExample "https://example.com/a".toList 20
      = "https://example.com/a".toList ∧
    ("https://example.com/a".toList.length = 21 ∧ (4:Int) ≤ 20 ∧ ¬(21 ≤ 20)) := by
  refine ⟨?_, by decide, by decide, by decide⟩
  decide

/-- Claim C10 amended: for every parse oracle, URL and maxLength ≥ 4,
`truncateUrl` returns a string of length at most maxLength, except in one
case: when the URL parses and its hostname plus pathname lengths fit in
maxLength while the whole URL does not, the URL is returned unchanged and
the result is longer than maxLength (as the concrete counterexample
shows). -/
theorem truncateUrl_length_bound (parse : List Char → Option URLParts)
    (url : List Char) (maxLength : Int) (h4 : 4 ≤ maxLength) :
    ((truncateUrl parse url maxLength).length : Int) ≤ maxLength ∨
    (truncateUrl parse url maxLength = url ∧
      ∃ u, parse url = some u ∧
        (u.hostname.length : Int) + (u.pathname.length : Int) ≤ maxLength ∧
        maxLength < (url.length : Int)) := by
  by_cases h1 : url = [] ∨ (url.length : Int) ≤ maxLength
  · unfold truncateUrl
    rw [if_pos h1]
    left
    rcases h1 with h | h
    · simp [h]
      omega
    · exact h
  · have h1' := h1
    push_neg at h1'
    obtain ⟨hne, hlong⟩ := h1'
    rcases hp : parse url with _ | u
    · simp only [truncateUrl, hp, if_neg h1]
      left
      simp only [jsSubstring, List.length_append, List.length_take,
        List.length_cons, List.length_nil]
      omega
    · simp only [truncateUrl, hp, if_neg h1]
      by_cases h2 : (u.hostname.length : Int) + (u.pathname.length : Int) ≤ maxLength
      · rw [if_pos h2]
        exact Or.inr ⟨rfl, u, rfl, h2, by omega⟩
      · rw [if_neg h2]
        left
        by_cases h3 : maxLength - 10 < (u.hostname.length : Int)
        · rw [if_pos h3]
          simp only [jsSubstring, List.length_append, List.length_take,
            List.length_cons, List.length_nil]
          omega
        · rw [if_neg h3]
          simp only [jsSubstring, List.length_append, List.length_take,
            List.length_cons, List.length_nil]
          omega

/-- Claim C10 witness: at the counterexample's parse oracle and URL with
maxLength 30, the amended bound holds. -/
theorem truncateUrl_length_bound_witness :
    ((truncateUrl parseExample "https://example.com/a".toList 30).length : Int) ≤ 30 ∨
    (truncateUrl parseExample "https://example.com/a".toList 30
        = "https://example.com/a".toList ∧
      ∃ u, parseExample "https://example.com/a".toList = some u ∧
        (u.hostname.length : Int) + (u.pathname.length : Int) ≤ 30 ∧
        (30:Int) < ("https://example.com/a".toList.length : Int)) :=
  truncateUrl_length_bound parseExample "https://example.com/a".toList 30 (by norm_num)

end PhishAgg
